import Mathlib

/-!
Shallow embedding of the lottery web application (`src/server.js` together
with the Prisma migration in `src/unnamed/part_000`).

Strings handled by the JavaScript code (personal ids, comma-separated
number lists) are modelled as `List Char`.  JavaScript's `String.split(',')`,
`trim`, `Array.join(',')` and `Number` (the full `StringNumericLiteral`
grammar: optional sign, decimal point, exponent, hex/octal/binary prefixes,
surrounding whitespace) are embedded below; see `jsNum` for the two
documented abstractions (negative and non-integral results are collapsed,
and decimal evaluation is exact rather than binary64).  The persistent
store (PostgreSQL via Prisma) is modelled as three lists plus the `SERIAL`
id counters; `cuid()` ticket ids are modelled as a fresh counter.
-/

/-- Model of JavaScript `s.split(',')`: accumulates the current piece and
emits it at every comma; the empty string splits to one empty piece. -/
def splitCommaAux : List Char → List Char → List (List Char)
  | [], acc => [acc.reverse]
  | c :: rest, acc =>
      if c = ',' then acc.reverse :: splitCommaAux rest []
      else splitCommaAux rest (c :: acc)

/-- Model of JavaScript `s.split(',')`. -/
def splitComma (s : List Char) : List (List Char) :=
  splitCommaAux s []

/-- Model of JavaScript `arr.join(',')`. -/
def joinComma : List (List Char) → List Char
  | [] => []
  | [p] => p
  | p :: ps => p ++ ',' :: joinComma ps

/-- The code points stripped by JavaScript's `TrimString` (used by both
`String.prototype.trim` and `Number`): `WhiteSpace` (TAB, VT, FF, SP,
NBSP, ZWNBSP and the Unicode `Zs` separators) and `LineTerminator`
(LF, CR, LS, PS). -/
def isJsWhitespace (c : Char) : Bool :=
  c.toNat = 9 || c.toNat = 10 || c.toNat = 11 || c.toNat = 12 || c.toNat = 13 ||
  c.toNat = 32 || c.toNat = 160 || c.toNat = 5760 ||
  (8192 ≤ c.toNat && c.toNat ≤ 8202) ||
  c.toNat = 8232 || c.toNat = 8233 || c.toNat = 8239 || c.toNat = 8287 ||
  c.toNat = 12288 || c.toNat = 65279

/-- Model of JavaScript `s.trim()` (JS whitespace stripped from both ends). -/
def jsTrim (s : List Char) : List Char :=
  ((s.dropWhile isJsWhitespace).reverse.dropWhile isJsWhitespace).reverse

/-- Numeric value of a list of decimal digit characters, most significant
first (the usual left fold). -/
def digitsVal (l : List Char) : Nat :=
  l.foldl (fun a c => a * 10 + (c.toNat - 48)) 0

/-- Value of one digit character in bases up to 16 (`99` marks a
non-digit, rejected by every base this program can reach). -/
def hexVal (c : Char) : Nat :=
  if c.isDigit then c.toNat - 48
  else if 'a' ≤ c ∧ c ≤ 'f' then c.toNat - 87
  else if 'A' ≤ c ∧ c ≤ 'F' then c.toNat - 55
  else 99

/-- Numeric value of a digit list in the given base, most significant
first. -/
def radixVal (base : Nat) (ds : List Char) : Nat :=
  ds.foldl (fun a c => a * base + hexVal c) 0

/-- JavaScript's `0x` / `0o` / `0b` literal bodies: nonempty, all digits of
the base; anything else is `NaN`. -/
def parseRadix (base : Nat) (ds : List Char) : Option Nat :=
  if ds ≠ [] ∧ ds.all (fun c => hexVal c < base) then some (radixVal base ds)
  else none

/-- JavaScript's `StrDecimalLiteral` (`[+|-] digits [. digits] [e [+|-]
digits]`, with at least one digit around the point), evaluated exactly:
`some n` when the literal's exact value is the integer `n ≥ 0`, `none`
otherwise.  `none` therefore covers a malformed literal (`NaN`) as well as
a negative or non-integral value: the program inspects a parsed value only
through `!Number.isInteger(n) || n < 1 || n > 45` (`src/server.js:147`),
which rejects all of those alike, and it reaches `new Set(arr)` and
`join(',')` only when every value passed that check, so the collapse is
invisible to every observation the code can make.  Evaluation is exact
integer arithmetic where JavaScript uses binary64: a token whose
acceptance hinges on binary64 rounding (at least seventeen significant
digits, e.g. `6.0000000000000000001`, which binary64 rounds to `6`) is
accepted by the program but rejected by this model; no shorter token in
the check's range `[1,45]` is affected. -/
def parseDec (t : List Char) : Option Nat :=
  let neg : Bool := t.head? = some '-'
  let u := if t.head? = some '+' ∨ t.head? = some '-' then t.tail else t
  let ip := u.takeWhile Char.isDigit
  let r1 := u.dropWhile Char.isDigit
  let fp := if r1.head? = some '.' then r1.tail.takeWhile Char.isDigit else []
  let r3 := if r1.head? = some '.' then r1.tail.dropWhile Char.isDigit else r1
  if ip = [] ∧ fp = [] then none
  else
    let e? : Option Int :=
      if r3 = [] then some 0
      else if r3.head? = some 'e' ∨ r3.head? = some 'E' then
        let esign : Int := if r3.tail.head? = some '-' then -1 else 1
        let ed := if r3.tail.head? = some '+' ∨ r3.tail.head? = some '-' then
          r3.tail.tail else r3.tail
        if ed ≠ [] ∧ ed.all Char.isDigit then some (esign * (digitsVal ed : Int))
        else none
      else none
    match e? with
    | none => none
    | some e =>
        let mant := digitsVal (ip ++ fp)
        let sh : Int := e - fp.length
        if neg ∧ mant ≠ 0 then none
        else if 0 ≤ sh then some (mant * 10 ^ sh.toNat)
        else if mant % 10 ^ (-sh).toNat = 0 then some (mant / 10 ^ (-sh).toNat)
        else none

/-- Model of JavaScript `Number(s)` on strings, to the granularity the
program observes (see `parseDec` for the two documented abstractions):
trim, the empty string is `0`, a `0x`/`0o`/`0b` prefix selects a radix
literal, and everything else is a signed decimal literal. -/
def jsNum (s : List Char) : Option Nat :=
  let t := jsTrim s
  if t.isEmpty then some 0
  else if t.head? = some '0' ∧ (t.tail.head? = some 'x' ∨ t.tail.head? = some 'X') then
    parseRadix 16 t.tail.tail
  else if t.head? = some '0' ∧ (t.tail.head? = some 'o' ∨ t.tail.head? = some 'O') then
    parseRadix 8 t.tail.tail
  else if t.head? = some '0' ∧ (t.tail.head? = some 'b' ∨ t.tail.head? = some 'B') then
    parseRadix 2 t.tail.tail
  else parseDec t

/-- Decimal digits of `n`, most significant first; the first argument is
recursion fuel (any fuel above `n` gives the full numeral). -/
def natToCharsCore : Nat → Nat → List Char
  | 0, _ => []
  | fuel + 1, n =>
      if n = 0 then []
      else natToCharsCore fuel (n / 10) ++ [Char.ofNat (48 + n % 10)]

/-- Model of JavaScript `String(n)` for a natural number: its decimal
numeral, most significant digit first. -/
def natToChars (n : Nat) : List Char :=
  if n = 0 then ['0'] else natToCharsCore (n + 1) n

/-- A betting round (`Round` table: `id SERIAL`, `isOpen BOOLEAN`).
The `createdAt` timestamp plays no role in any logic and is omitted. -/
structure Round where
  id : Nat
  isOpen : Bool
deriving DecidableEq

/-- A submitted ticket (`Ticket` table).  The `cuid()` text primary key is
modelled as a fresh natural number. -/
structure Ticket where
  id : Nat
  personalId : List Char
  numbersCsv : List Char
  roundId : Nat
  userSub : Option (List Char)
deriving DecidableEq

/-- A published draw (`Draw` table; `roundId` carries a unique index). -/
structure Draw where
  id : Nat
  numbers : List Char
  roundId : Nat
deriving DecidableEq

/-- The persistent store: the three tables plus the `SERIAL` sequences. -/
structure Store where
  rounds : List Round
  tickets : List Ticket
  draws : List Draw
  nextRoundId : Nat
  nextTicketId : Nat
  nextDrawId : Nat
deriving DecidableEq

/-- The empty store; `SERIAL` sequences start at 1. -/
def Store.init : Store :=
  { rounds := [], tickets := [], draws := [],
    nextRoundId := 1, nextTicketId := 1, nextDrawId := 1 }

/-- `getOpenRound`: `prisma.round.findFirst({ where: { isOpen: true } })`. -/
def getOpenRound (s : Store) : Option Round :=
  s.rounds.find? (·.isOpen)

/-- `getLastRound`: `prisma.round.findFirst({ orderBy: { id: 'desc' } })`,
i.e. the round with the greatest id. -/
def getLastRound (s : Store) : Option Round :=
  s.rounds.foldl
    (fun acc r =>
      match acc with
      | none => some r
      | some a => if a.id ≤ r.id then some r else some a)
    none

/-- Result of `POST /new-round`; the route answers 204 in both branches but
they are distinct return points in the code (`// već aktivno` vs the
creation path), so the model keeps them apart. -/
inductive OpenResult where
  | alreadyOpen
  | opened (id : Nat)
deriving DecidableEq

/-- `POST /new-round`: no-op if a round is open; otherwise close every open
round (`updateMany`) and insert a fresh open round. -/
def openNewRound (s : Store) : OpenResult × Store :=
  match getOpenRound s with
  | some _ => (OpenResult.alreadyOpen, s)
  | none =>
      let cleared := s.rounds.map fun r =>
        if r.isOpen then { r with isOpen := false } else r
      let newR : Round := { id := s.nextRoundId, isOpen := true }
      (OpenResult.opened newR.id,
        { s with rounds := cleared ++ [newR], nextRoundId := s.nextRoundId + 1 })

/-- Result of `POST /close` (again two distinct return points). -/
inductive CloseResult where
  | alreadyClosedOrNone
  | closed (id : Nat)
deriving DecidableEq

/-- `POST /close`: no-op if no round is open; otherwise flip the found open
round's `isOpen` to `false` (`update where id = current.id`). -/
def closeOpenRound (s : Store) : CloseResult × Store :=
  match getOpenRound s with
  | none => (CloseResult.alreadyClosedOrNone, s)
  | some r =>
      (CloseResult.closed r.id,
        { s with rounds := s.rounds.map fun q =>
            if q.id = r.id then { q with isOpen := false } else q })

/-- The ticket-submission failures of `POST /tickets` (the 403 guard plus
the four messages thrown by `ticketSchema`). -/
inductive TicketError where
  | admissionClosed
  | invalidPersonalId
  | invalidCount
  | invalidRange
  | duplicateNumbers
deriving DecidableEq

/-- The `personalId` field of `ticketSchema`:
`z.string().min(1).max(20).regex(/^[A-Za-z0-9]+$/)`. -/
def validPersonalId (pid : List Char) : Bool :=
  if pid.isEmpty then false
  else if 20 < pid.length then false
  else pid.all Char.isAlphanum

/-- The token pipeline of the `numbers` transform:
`s.split(',').map(v => v.trim()).filter(Boolean).map(Number)`. -/
def parseNumbersRaw (raw : List Char) : List (Option Nat) :=
  (((splitComma raw).map jsTrim).filter (fun t => !t.isEmpty)).map jsNum

/-- One parsed token failing `!Number.isInteger(n) || n < 1 || n > 45`. -/
def isBadNum (o : Option Nat) : Bool :=
  match o with
  | none => true
  | some n => decide (n < 1) || decide (45 < n)

/-- The three thrown checks of the `numbers` transform, in source order:
length 6–10, every entry an integer in `[1,45]`, no duplicates
(`new Set(arr).size !== arr.length`). -/
def numbersCheck (arr : List (Option Nat)) : Option TicketError :=
  if arr.length < 6 ∨ 10 < arr.length then some TicketError.invalidCount
  else if arr.any isBadNum then some TicketError.invalidRange
  else if arr.dedup.length ≠ arr.length then some TicketError.duplicateNumbers
  else none

/-- The successfully parsed values of a token list (all tokens are `some`
whenever this is used, by `numbersCheck`). -/
def extractNums (arr : List (Option Nat)) : List Nat :=
  arr.reduceOption

/-- `POST /tickets`: 403 when no round is open, then `ticketSchema.parse`,
then `prisma.ticket.create` with `numbersCsv = parsed.numbers.join(',')`
and `roundId = openRound.id`.

A failure of the numbers transform wins over a personal-id failure even
though `personalId` comes first in the zod shape: `z.object(...).parse`
runs every field, recording `min`/`max`/`regex` violations of `personalId`
as issues to be thrown in a `ZodError` only after the whole object has
parsed, whereas the `numbers` transform throws a plain `Error`
(`src/server.js:146,148,150`) that zod does not catch, so it escapes
`.parse()` at once.  Hence the observable order is: admission guard, the
three thrown numbers checks, then the personal-id rule. -/
def submitTicket (pid raw : List Char) (sub : Option (List Char)) (s : Store) :
    (Ticket ⊕ TicketError) × Store :=
  match getOpenRound s with
  | none => (Sum.inr TicketError.admissionClosed, s)
  | some openR =>
      let arr := parseNumbersRaw raw
      match numbersCheck arr with
      | some e => (Sum.inr e, s)
      | none =>
          if !validPersonalId pid then (Sum.inr TicketError.invalidPersonalId, s)
          else
            let nums := extractNums arr
            let t : Ticket :=
              { id := s.nextTicketId, personalId := pid,
                numbersCsv := joinComma (nums.map natToChars),
                roundId := openR.id, userSub := sub }
            (Sum.inl t,
              { s with tickets := s.tickets ++ [t],
                       nextTicketId := s.nextTicketId + 1 })

/-- The four 400 messages of `POST /store-results`, in source order. -/
inductive DrawError where
  | bettingStillActive
  | noRoundsExist
  | drawAlreadyExists
  | missingOrInvalidNumbers
deriving DecidableEq

/-- `POST /store-results`.  The request body's `numbers` field is modelled
as `Option (List Nat)`: `none` for a missing field or any non-array value
(the `Array.isArray` check), `some l` for an array, whose entries this
program only ever turns into text with `join(',')`. -/
def publishDraw (numbers? : Option (List Nat)) (s : Store) :
    (Draw ⊕ DrawError) × Store :=
  match getOpenRound s with
  | some _ => (Sum.inr DrawError.bettingStillActive, s)
  | none =>
      match getLastRound s with
      | none => (Sum.inr DrawError.noRoundsExist, s)
      | some last =>
          if (s.draws.find? (fun d => d.roundId == last.id)).isSome then
            (Sum.inr DrawError.drawAlreadyExists, s)
          else
            match numbers? with
            | none => (Sum.inr DrawError.missingOrInvalidNumbers, s)
            | some l =>
                let d : Draw :=
                  { id := s.nextDrawId,
                    numbers := joinComma (l.map natToChars),
                    roundId := last.id }
                (Sum.inl d,
                  { s with draws := s.draws ++ [d],
                           nextDrawId := s.nextDrawId + 1 })

/-- What `GET /t/:id` renders: the ticket's own parsed numbers and the
parsed drawn numbers (empty when no draw is shown). -/
structure TicketView where
  ticketId : Nat
  personalId : List Char
  yourNumbers : List (Option Nat)
  drawnNumbers : List (Option Nat)
deriving DecidableEq

/-- The page prints `— još nisu objavljeni —` ("not yet drawn") exactly when
the parsed draw list is empty (`draw.length ? ... : ...`). -/
def notYetDrawn (v : TicketView) : Bool :=
  v.drawnNumbers.isEmpty

/-- `GET /t/:id`: load the ticket (404 when absent), parse its CSV, and —
only when a draw exists for the ticket's round AND its `numbers` string is
truthy (non-empty) — parse the drawn numbers.  The draw is reached in the
code as `ticket.round.draw`, i.e. the unique `Draw` row with `roundId`
equal to the ticket's `roundId`. -/
def getTicketView (tid : Nat) (s : Store) : Option TicketView :=
  match s.tickets.find? (fun t => t.id == tid) with
  | none => none
  | some t =>
      let drawn : List (Option Nat) :=
        match s.draws.find? (fun d => d.roundId == t.roundId) with
        | some d =>
            if d.numbers.isEmpty then [] else (splitComma d.numbers).map jsNum
        | none => []
      some { ticketId := t.id, personalId := t.personalId,
             yourNumbers := (splitComma t.numbersCsv).map jsNum,
             drawnNumbers := drawn }

/-- One mutating request, for reasoning about request sequences. -/
inductive Op where
  | openRound
  | closeRound
  | submit (pid raw : List Char) (sub : Option (List Char))
  | publish (numbers? : Option (List Nat))

/-- The store after one request (responses discarded). -/
def applyOp (o : Op) (s : Store) : Store :=
  match o with
  | Op.openRound => (openNewRound s).2
  | Op.closeRound => (closeOpenRound s).2
  | Op.submit pid raw sub => (submitTicket pid raw sub s).2
  | Op.publish n? => (publishDraw n? s).2

/-- The store after a sequence of requests. -/
def runOps (ops : List Op) (s : Store) : Store :=
  match ops with
  | [] => s
  | o :: rest => runOps rest (applyOp o s)

/-- A store state the application can actually be in: produced from the
empty store by some request sequence. -/
def Reachable (s : Store) : Prop :=
  ∃ ops, runOps ops Store.init = s

/-- Number of open rounds in the store. -/
def openCount (s : Store) : Nat :=
  s.rounds.countP (·.isOpen)

/-- The inductive store invariant: at most one open round, pairwise
distinct draw `roundId`s (the `Draw_roundId_key` unique index), and every
stored ticket id below the ticket-id sequence value. -/
def StoreInv (s : Store) : Prop :=
  openCount s ≤ 1 ∧ (s.draws.map (·.roundId)).Nodup ∧
    ∀ t ∈ s.tickets, t.id < s.nextTicketId

/-- Error component of a ticket-submission result. -/
def resultError : Ticket ⊕ TicketError → Option TicketError
  | Sum.inl _ => none
  | Sum.inr e => some e

/-- Error component of a draw-publication result. -/
def drawResultError : Draw ⊕ DrawError → Option DrawError
  | Sum.inl _ => none
  | Sum.inr e => some e

/-- The character class of the spec's regex `[A-Za-z0-9]`. -/
def charInClass (c : Char) : Prop :=
  ('A' ≤ c ∧ c ≤ 'Z') ∨ ('a' ≤ c ∧ c ≤ 'z') ∨ ('0' ≤ c ∧ c ≤ '9')

instance : DecidablePred charInClass := fun c => by
  unfold charInClass
  infer_instance

/-- A parsed token that is an integer lying in `[1,45]` (the spec's
step-3 property; `none` is a value that is not an integer). -/
def inRange145 : Option Nat → Prop
  | none => False
  | some n => 1 ≤ n ∧ n ≤ 45

instance : DecidablePred inRange145 := fun o =>
  match o with
  | none => isFalse fun h => h
  | some n => decidable_of_iff (1 ≤ n ∧ n ≤ 45) Iff.rfl

/-- The ticket-validation rules with the spec's four conditions but in the
order the program actually applies them — count rule, range rule,
duplicate rule (thrown from the numbers transform, escaping zod's parse at
once), and the personal-id rule last (surfacing only in the `ZodError`
thrown after the whole object has parsed) — with first failure winning. -/
def orderedTicketError (pid raw : List Char) : Option TicketError :=
  let arr := parseNumbersRaw raw
  if arr.length < 6 ∨ 10 < arr.length then some TicketError.invalidCount
  else if ∃ o ∈ arr, ¬ inRange145 o then some TicketError.invalidRange
  else if ¬ arr.Nodup then some TicketError.duplicateNumbers
  else if pid = [] ∨ 20 < pid.length ∨ ∃ c ∈ pid, ¬ charInClass c then
    some TicketError.invalidPersonalId
  else none

/-- The spec's draw-publication preconditions, written as the spec states
them, in the spec's order: no open round, a most-recent round exists, it is
undrawn, and the payload is a sequence. -/
def specDrawOutcome (n? : Option (List Nat)) (s : Store) : Option DrawError :=
  if s.rounds.any (·.isOpen) then some DrawError.bettingStillActive
  else
    match getLastRound s with
    | none => some DrawError.noRoundsExist
    | some last =>
        if s.draws.any (fun d => d.roundId == last.id) then
          some DrawError.drawAlreadyExists
        else if n?.isSome then none
        else some DrawError.missingOrInvalidNumbers

theorem splitCommaAux_no_comma (p : List Char) (hp : ',' ∉ p) :
    ∀ s acc, splitCommaAux (p ++ s) acc = splitCommaAux s (p.reverse ++ acc) := by
  induction p with
  | nil => intro s acc; simp
  | cons c cs ih =>
      intro s acc
      have hc : ¬ c = ',' := fun h => hp (h ▸ List.mem_cons_self c cs)
      have hcs : ',' ∉ cs := fun h => hp (List.mem_cons_of_mem c h)
      simp only [List.cons_append, splitCommaAux, if_neg hc]
      show splitCommaAux (cs ++ s) (c :: acc) = _
      rw [ih hcs s (c :: acc)]
      simp

theorem splitComma_joinComma :
    ∀ ps : List (List Char), ps ≠ [] → (∀ p ∈ ps, ',' ∉ p) →
      splitComma (joinComma ps) = ps := by
  intro ps
  induction ps with
  | nil => intro h; exact absurd rfl h
  | cons p qs ih =>
      intro _ hp
      cases qs with
      | nil =>
          have hpc : ',' ∉ p := hp p (List.mem_cons_self p [])
          have : splitCommaAux (p ++ []) [] = splitCommaAux [] (p.reverse ++ []) :=
            splitCommaAux_no_comma p hpc [] []
          simpa [splitComma, joinComma, splitCommaAux] using this
      | cons q qs' =>
          have hpc : ',' ∉ p := hp p (List.mem_cons_self p _)
          have hrest : ∀ r ∈ q :: qs', ',' ∉ r := fun r hr => hp r (List.mem_cons_of_mem p hr)
          have h1 : joinComma (p :: q :: qs') = p ++ ',' :: joinComma (q :: qs') := rfl
          have h2 := splitCommaAux_no_comma p hpc (',' :: joinComma (q :: qs')) []
          have h3 : splitCommaAux (',' :: joinComma (q :: qs')) (p.reverse ++ []) =
              (p.reverse ++ []).reverse :: splitCommaAux (joinComma (q :: qs')) [] := by
            simp [splitCommaAux]
          have ih' := ih (by simp) hrest
          calc splitComma (joinComma (p :: q :: qs'))
              = splitCommaAux (p ++ ',' :: joinComma (q :: qs')) [] := by rw [splitComma, h1]
            _ = (p.reverse ++ []).reverse :: splitCommaAux (joinComma (q :: qs')) [] := by
                rw [h2, h3]
            _ = p :: (q :: qs') := by
                rw [← splitComma, ih']; simp

theorem digitChar_facts : ∀ d, d < 10 → (Char.ofNat (48 + d)).toNat = 48 + d ∧
    (Char.ofNat (48 + d)).isDigit = true ∧ Char.ofNat (48 + d) ≠ ',' ∧
    Char.ofNat (48 + d) ≠ '+' := by decide

theorem digitChar_facts2 : ∀ d, d < 10 → Char.ofNat (48 + d) ≠ '-' ∧
    isJsWhitespace (Char.ofNat (48 + d)) = false ∧
    Char.ofNat (48 + d) ≠ 'x' ∧ Char.ofNat (48 + d) ≠ 'X' ∧
    Char.ofNat (48 + d) ≠ 'o' ∧ Char.ofNat (48 + d) ≠ 'O' ∧
    Char.ofNat (48 + d) ≠ 'b' ∧ Char.ofNat (48 + d) ≠ 'B' := by decide

theorem natToCharsCore_mem (fuel : Nat) :
    ∀ n, ∀ c ∈ natToCharsCore fuel n, ∃ d, d < 10 ∧ c = Char.ofNat (48 + d) := by
  induction fuel with
  | zero => intro n c hc; simp [natToCharsCore] at hc
  | succ fuel ih =>
      intro n c hc
      by_cases h0 : n = 0
      · simp [natToCharsCore, h0] at hc
      · rw [natToCharsCore, if_neg h0] at hc
        rcases List.mem_append.mp hc with h | h
        · exact ih (n / 10) c h
        · rcases List.mem_singleton.mp h with rfl
          exact ⟨n % 10, Nat.mod_lt _ (by omega), rfl⟩

theorem digitsVal_append_digit (l : List Char) (c : Char) :
    digitsVal (l ++ [c]) = digitsVal l * 10 + (c.toNat - 48) := by
  simp [digitsVal, List.foldl_append]

theorem digitsVal_natToCharsCore :
    ∀ fuel n, n < fuel → digitsVal (natToCharsCore fuel n) = n := by
  intro fuel
  induction fuel with
  | zero => intro n h; omega
  | succ fuel ih =>
      intro n h
      by_cases h0 : n = 0
      · simp [natToCharsCore, h0, digitsVal]
      · rw [natToCharsCore, if_neg h0, digitsVal_append_digit,
          ih (n / 10) (by omega), (digitChar_facts (n % 10) (by omega)).1]
        omega

theorem natToChars_mem (n : Nat) :
    ∀ c ∈ natToChars n, ∃ d, d < 10 ∧ c = Char.ofNat (48 + d) := by
  intro c hc
  by_cases h0 : n = 0
  · rw [natToChars, if_pos h0] at hc
    rcases List.mem_singleton.mp hc with rfl
    exact ⟨0, by omega, rfl⟩
  · rw [natToChars, if_neg h0] at hc
    exact natToCharsCore_mem (n + 1) n c hc

theorem natToChars_ne_nil (n : Nat) : natToChars n ≠ [] := by
  by_cases h0 : n = 0
  · simp [natToChars, h0]
  · rw [natToChars, if_neg h0, natToCharsCore, if_neg h0]
    simp

theorem natToChars_no_comma (n : Nat) : ',' ∉ natToChars n := by
  intro h
  rcases natToChars_mem n ',' h with ⟨d, hd, he⟩
  exact (digitChar_facts d hd).2.2.1 he.symm

theorem takeWhile_of_all_pos {p : Char → Bool} :
    ∀ l : List Char, (∀ c ∈ l, p c = true) → l.takeWhile p = l := by
  intro l h
  induction l with
  | nil => rfl
  | cons a t ih =>
      rw [List.takeWhile_cons, h a (List.mem_cons_self a t)]
      simp only [if_pos]
      rw [ih (fun c hc => h c (List.mem_cons_of_mem a hc))]

theorem dropWhile_of_all_pos {p : Char → Bool} :
    ∀ l : List Char, (∀ c ∈ l, p c = true) → l.dropWhile p = [] := by
  intro l h
  induction l with
  | nil => rfl
  | cons a t ih =>
      rw [List.dropWhile_cons, h a (List.mem_cons_self a t)]
      simp only [if_pos]
      exact ih (fun c hc => h c (List.mem_cons_of_mem a hc))

theorem dropWhile_of_all_neg {p : Char → Bool} :
    ∀ l : List Char, (∀ c ∈ l, p c = false) → l.dropWhile p = l := by
  intro l h
  cases l with
  | nil => rfl
  | cons a t =>
      rw [List.dropWhile_cons, h a (List.mem_cons_self a t)]
      simp

theorem jsTrim_of_no_ws (l : List Char) (h : ∀ c ∈ l, isJsWhitespace c = false) :
    jsTrim l = l := by
  rw [jsTrim, dropWhile_of_all_neg l h,
    dropWhile_of_all_neg l.reverse (fun c hc => h c (List.mem_reverse.mp hc)),
    List.reverse_reverse]

theorem head?_digit {l : List Char}
    (hd : ∀ c ∈ l, ∃ d, d < 10 ∧ c = Char.ofNat (48 + d)) :
    ∀ ch, l.head? = some ch → ∃ d, d < 10 ∧ ch = Char.ofNat (48 + d) := by
  intro ch h
  exact hd ch (List.mem_of_mem_head? (by simp [h]))

theorem parseDec_digits (l : List Char) (hne : l ≠ [])
    (hd : ∀ c ∈ l, ∃ d, d < 10 ∧ c = Char.ofNat (48 + d)) :
    parseDec l = some (digitsVal l) := by
  have hdig : ∀ c ∈ l, Char.isDigit c = true := by
    intro c hc
    rcases hd c hc with ⟨d, hdlt, rfl⟩
    exact (digitChar_facts d hdlt).2.1
  have hplus : ¬ l.head? = some '+' := by
    intro hh
    rcases head?_digit hd _ hh with ⟨d, hdlt, he⟩
    exact (digitChar_facts d hdlt).2.2.2 he.symm
  have hminus : ¬ l.head? = some '-' := by
    intro hh
    rcases head?_digit hd _ hh with ⟨d, hdlt, he⟩
    exact (digitChar_facts2 d hdlt).1 he.symm
  rw [parseDec]
  simp only [hplus, hminus, or_self, if_false, if_neg (by simp [hplus, hminus] : ¬ (l.head? = some '+' ∨ l.head? = some '-'))]
  rw [takeWhile_of_all_pos l hdig, dropWhile_of_all_pos l hdig]
  simp only [List.head?_nil, reduceCtorEq, if_false, if_neg (by simp : ¬ (([] : List Char).head? = some '.'))]
  rw [if_neg (by simp [hne])]
  simp [decide_eq_false hminus]

theorem jsNum_natToChars (n : Nat) : jsNum (natToChars n) = some n := by
  have hne := natToChars_ne_nil n
  have hmem := natToChars_mem n
  have htail : ∀ ch, (natToChars n).tail.head? = some ch →
      ∃ d, d < 10 ∧ ch = Char.ofNat (48 + d) := by
    intro ch h
    exact hmem ch (List.mem_of_mem_tail (List.mem_of_mem_head? (by simp [h])))
  rw [jsNum]
  rw [jsTrim_of_no_ws _ (fun c hc => by
    rcases hmem c hc with ⟨d, hdlt, rfl⟩
    exact (digitChar_facts2 d hdlt).2.1)]
  rw [if_neg (by simpa [List.isEmpty_iff] using hne)]
  rw [if_neg (by
    rintro ⟨-, h | h⟩ <;> rcases htail _ h with ⟨d, hdlt, he⟩
    · exact (digitChar_facts2 d hdlt).2.2.1 he.symm
    · exact (digitChar_facts2 d hdlt).2.2.2.1 he.symm)]
  rw [if_neg (by
    rintro ⟨-, h | h⟩ <;> rcases htail _ h with ⟨d, hdlt, he⟩
    · exact (digitChar_facts2 d hdlt).2.2.2.2.1 he.symm
    · exact (digitChar_facts2 d hdlt).2.2.2.2.2.1 he.symm)]
  rw [if_neg (by
    rintro ⟨-, h | h⟩ <;> rcases htail _ h with ⟨d, hdlt, he⟩
    · exact (digitChar_facts2 d hdlt).2.2.2.2.2.2.1 he.symm
    · exact (digitChar_facts2 d hdlt).2.2.2.2.2.2.2 he.symm)]
  rw [parseDec_digits _ hne hmem]
  by_cases h0 : n = 0
  · subst h0; decide
  · rw [natToChars, if_neg h0, digitsVal_natToCharsCore (n + 1) n (by omega)]

theorem parse_join (l : List Nat) (hl : l ≠ []) :
    (splitComma (joinComma (l.map natToChars))).map jsNum = l.map some := by
  rw [splitComma_joinComma (l.map natToChars) (by simpa using hl)
    (by intro p hp; rcases List.mem_map.mp hp with ⟨m, _, rfl⟩; exact natToChars_no_comma m)]
  rw [List.map_map]
  exact List.map_congr_left fun m _ => jsNum_natToChars m

theorem getOpenRound_some {s : Store} {r : Round} (h : getOpenRound s = some r) :
    r ∈ s.rounds ∧ r.isOpen = true :=
  ⟨List.mem_of_find?_eq_some h, List.find?_some h⟩

theorem getOpenRound_none {s : Store} (h : getOpenRound s = none) :
    ∀ r ∈ s.rounds, r.isOpen = false := by
  intro r hr
  simpa using List.find?_eq_none.mp h r hr

theorem openCount_openNewRound (s : Store) (h : openCount s ≤ 1) :
    openCount (openNewRound s).2 ≤ 1 := by
  cases hq : getOpenRound s with
  | some r => rw [openNewRound, hq]; exact h
  | none =>
      rw [openNewRound, hq]
      simp only [openCount, List.countP_append]
      have h1 : (s.rounds.map fun r =>
          if r.isOpen then { r with isOpen := false } else r).countP (·.isOpen) = 0 := by
        rw [List.countP_eq_zero]
        intro a ha
        rcases List.mem_map.mp ha with ⟨r, _, rfl⟩
        by_cases hro : r.isOpen <;> simp [hro]
      rw [h1]
      simp

theorem openCount_closeOpenRound (s : Store) (h : openCount s ≤ 1) :
    openCount (closeOpenRound s).2 ≤ 1 := by
  cases hq : getOpenRound s with
  | none => rw [closeOpenRound, hq]; exact h
  | some r =>
      rw [closeOpenRound, hq]
      refine le_trans ?_ h
      simp only [openCount, List.countP_map]
      refine List.countP_mono_left ?_
      intro q _ hqo
      by_cases hid : q.id = r.id
      · simp [hid] at hqo
      · simpa [hid] using hqo

theorem submitTicket_rounds (pid raw : List Char) (sub : Option (List Char)) (s : Store) :
    (submitTicket pid raw sub s).2.rounds = s.rounds ∧
    (submitTicket pid raw sub s).2.draws = s.draws ∧
    (submitTicket pid raw sub s).2.nextTicketId =
      s.nextTicketId + (if (submitTicket pid raw sub s).1.isLeft then 1 else 0) := by
  rw [submitTicket]
  cases getOpenRound s with
  | none => simp
  | some r =>
      cases hchk : numbersCheck (parseNumbersRaw raw) with
      | some e => simp [hchk]
      | none =>
          by_cases hp : validPersonalId pid
          · simp [hchk, hp]
          · simp [hchk, hp]

theorem publishDraw_rounds (n? : Option (List Nat)) (s : Store) :
    (publishDraw n? s).2.rounds = s.rounds ∧
    (publishDraw n? s).2.tickets = s.tickets ∧
    (publishDraw n? s).2.nextTicketId = s.nextTicketId := by
  rw [publishDraw]
  cases getOpenRound s with
  | some r => simp
  | none =>
      cases getLastRound s with
      | none => simp
      | some last =>
          by_cases hd : (s.draws.find? (fun d => d.roundId == last.id)).isSome
          · simp [hd]
          · cases n? with
            | none => simp [hd]
            | some l => simp [hd]

theorem openNewRound_frame (s : Store) :
    (openNewRound s).2.draws = s.draws ∧ (openNewRound s).2.tickets = s.tickets ∧
    (openNewRound s).2.nextTicketId = s.nextTicketId := by
  rw [openNewRound]; cases getOpenRound s <;> simp

theorem closeOpenRound_frame (s : Store) :
    (closeOpenRound s).2.draws = s.draws ∧ (closeOpenRound s).2.tickets = s.tickets ∧
    (closeOpenRound s).2.nextTicketId = s.nextTicketId := by
  rw [closeOpenRound]; cases getOpenRound s <;> simp

theorem submitTicket_tickets (pid raw : List Char) (sub : Option (List Char)) (s : Store) :
    ((submitTicket pid raw sub s).2.tickets = s.tickets ∧
      (submitTicket pid raw sub s).2.nextTicketId = s.nextTicketId) ∨
    (∃ t, (submitTicket pid raw sub s).1 = Sum.inl t ∧ t.id = s.nextTicketId ∧
      (submitTicket pid raw sub s).2.tickets = s.tickets ++ [t] ∧
      (submitTicket pid raw sub s).2.nextTicketId = s.nextTicketId + 1) := by
  rw [submitTicket]
  cases getOpenRound s with
  | none => left; simp
  | some r =>
      cases hchk : numbersCheck (parseNumbersRaw raw) with
      | some e => left; simp [hchk]
      | none =>
          by_cases hp : validPersonalId pid
          · simp only [hchk, hp]
            right
            exact ⟨_, rfl, rfl, rfl, rfl⟩
          · left; simp [hchk, hp]

theorem publishDraw_draws (n? : Option (List Nat)) (s : Store) :
    (publishDraw n? s).2.draws = s.draws ∨
    (∃ last d, getLastRound s = some last ∧
      s.draws.find? (fun x => x.roundId == last.id) = none ∧
      d.roundId = last.id ∧ (publishDraw n? s).2.draws = s.draws ++ [d]) := by
  rw [publishDraw]
  cases getOpenRound s with
  | some r => left; simp
  | none =>
      cases hl : getLastRound s with
      | none => left; simp
      | some last =>
          by_cases hd : (s.draws.find? (fun d => d.roundId == last.id)).isSome
          · left; simp [hd]
          · cases n? with
            | none => left; simp [hd]
            | some l =>
                right
                exact ⟨last, ⟨s.nextDrawId, joinComma (l.map natToChars), last.id⟩,
                  rfl, Option.not_isSome_iff_eq_none.mp hd, rfl, by simp [hd]⟩

theorem StoreInv.init : StoreInv Store.init := by
  refine ⟨by simp [openCount, Store.init], by simp [Store.init], ?_⟩
  intro t ht
  simp [Store.init] at ht

theorem storeInv_applyOp (o : Op) (s : Store) (h : StoreInv s) : StoreInv (applyOp o s) := by
  obtain ⟨h1, h2, h3⟩ := h
  cases o with
  | openRound =>
      show StoreInv (openNewRound s).2
      obtain ⟨f1, f2, f3⟩ := openNewRound_frame s
      exact ⟨openCount_openNewRound s h1, f1 ▸ h2, by rw [f2, f3]; exact h3⟩
  | closeRound =>
      show StoreInv (closeOpenRound s).2
      obtain ⟨f1, f2, f3⟩ := closeOpenRound_frame s
      exact ⟨openCount_closeOpenRound s h1, f1 ▸ h2, by rw [f2, f3]; exact h3⟩
  | submit pid raw sub =>
      show StoreInv (submitTicket pid raw sub s).2
      obtain ⟨f1, f2, f3⟩ := submitTicket_rounds pid raw sub s
      refine ⟨by simpa [openCount, f1] using h1, f2 ▸ h2, ?_⟩
      rcases submitTicket_tickets pid raw sub s with ⟨g1, g2⟩ | ⟨t, _, hid, g1, g2⟩
      · rw [g1, g2]; exact h3
      · rw [g1, g2]
        intro u hu
        rcases List.mem_append.mp hu with hu | hu
        · exact lt_trans (h3 u hu) (by omega)
        · rcases List.mem_singleton.mp hu with rfl
          omega
  | publish n? =>
      show StoreInv (publishDraw n? s).2
      obtain ⟨f1, f2, f3⟩ := publishDraw_rounds n? s
      refine ⟨by simpa [openCount, f1] using h1, ?_, by rw [f2, f3]; exact h3⟩
      rcases publishDraw_draws n? s with g | ⟨last, d, _, hnone, hrid, g⟩
      · rw [g]; exact h2
      · rw [g, List.map_append]
        simp only [List.map_cons, List.map_nil]
        rw [List.nodup_append]
        refine ⟨h2, List.nodup_singleton _, ?_⟩
        intro a ha hb
        rcases List.mem_singleton.mp hb with rfl
        rcases List.mem_map.mp ha with ⟨x, hx, hxe⟩
        have := List.find?_eq_none.mp hnone x hx
        simp only [beq_iff_eq] at this
        exact this (hxe.trans hrid)

theorem storeInv_runOps (ops : List Op) (s : Store) (h : StoreInv s) :
    StoreInv (runOps ops s) := by
  induction ops generalizing s with
  | nil => exact h
  | cons o rest ih => exact ih (applyOp o s) (storeInv_applyOp o s h)

theorem reachable_storeInv {s : Store} (h : Reachable s) : StoreInv s := by
  rcases h with ⟨ops, rfl⟩
  exact storeInv_runOps ops Store.init StoreInv.init

theorem cleared_not_open (rounds : List Round) :
    ∀ a ∈ rounds.map (fun r => if r.isOpen then { r with isOpen := false } else r),
      a.isOpen = false := by
  intro a ha
  rcases List.mem_map.mp ha with ⟨r, _, rfl⟩
  by_cases hro : r.isOpen <;> simp [hro]

/-- C1: starting from the empty store, every sequence of the four mutating
operations leaves at most one round with `isOpen = true`. -/
theorem claim_C1 (ops : List Op) : openCount (runOps ops Store.init) ≤ 1 :=
  (storeInv_runOps ops Store.init StoreInv.init).1

/-- C4: with no open round, `POST /tickets` answers `AdmissionClosed`
(403) for every input, leaving the store untouched. -/
theorem claim_C4 (pid raw : List Char) (sub : Option (List Char)) (s : Store)
    (h : getOpenRound s = none) :
    submitTicket pid raw sub s = (Sum.inr TicketError.admissionClosed, s) := by
  rw [submitTicket, h]

theorem claim_C4_witness :
    getOpenRound Store.init = none ∧
    submitTicket "@@!!".toList "zzz".toList (some "u1".toList) Store.init =
      (Sum.inr TicketError.admissionClosed, Store.init) :=
  ⟨rfl, claim_C4 "@@!!".toList "zzz".toList (some "u1".toList) Store.init rfl⟩

theorem openNewRound_already (s : Store) (r : Round) (hq : getOpenRound s = some r) :
    openNewRound s = (OpenResult.alreadyOpen, s) := by
  rw [openNewRound, hq]

theorem openNewRound_fresh (s : Store) (hq : getOpenRound s = none) :
    (∃ r, getOpenRound (openNewRound s).2 = some r) ∧
    openCount (openNewRound s).2 = 1 := by
  rw [openNewRound, hq]
  constructor
  · refine ⟨{ id := s.nextRoundId, isOpen := true }, ?_⟩
    show ((s.rounds.map fun r : Round =>
        if r.isOpen then { r with isOpen := false } else r) ++
          [({ id := s.nextRoundId, isOpen := true } : Round)]).find? (·.isOpen) = _
    rw [List.find?_append]
    have hnone : (s.rounds.map fun r =>
        if r.isOpen then { r with isOpen := false } else r).find? (·.isOpen) = none := by
      rw [List.find?_eq_none]
      intro a ha
      simp [cleared_not_open s.rounds a ha]
    rw [hnone]
    rfl
  · show ((s.rounds.map fun r : Round =>
        if r.isOpen then { r with isOpen := false } else r) ++
          [({ id := s.nextRoundId, isOpen := true } : Round)]).countP (·.isOpen) = 1
    rw [List.countP_append]
    have h1 : (s.rounds.map fun r =>
        if r.isOpen then { r with isOpen := false } else r).countP (·.isOpen) = 0 := by
      rw [List.countP_eq_zero]
      intro a ha
      simp [cleared_not_open s.rounds a ha]
    rw [h1]
    rfl

/-- C7: `POST /new-round` is an idempotent no-op when a round is already
open; from any store satisfying the single-open-round invariant, two calls
in a row leave exactly one open round, the second answering the
already-open status without changing the store. -/
theorem claim_C7 (s : Store) (h : openCount s ≤ 1) :
    (openNewRound (openNewRound s).2).1 = OpenResult.alreadyOpen ∧
    (openNewRound (openNewRound s).2).2 = (openNewRound s).2 ∧
    openCount (openNewRound s).2 = 1 := by
  cases hq : getOpenRound s with
  | some r =>
      have h1 := openNewRound_already s r hq
      have hcount : openCount s = 1 := by
        have hpos : 0 < openCount s := by
          rw [openCount, List.countP_pos_iff]
          exact ⟨r, (getOpenRound_some hq).1, (getOpenRound_some hq).2⟩
        omega
      rw [h1]
      exact ⟨by rw [openNewRound_already s r hq], by rw [openNewRound_already s r hq], hcount⟩
  | none =>
      obtain ⟨⟨r1, hr1⟩, hcount⟩ := openNewRound_fresh s hq
      have h2 := openNewRound_already (openNewRound s).2 r1 hr1
      exact ⟨by rw [h2], by rw [h2], hcount⟩

theorem claim_C7_witness :
    openCount Store.init ≤ 1 ∧
    (openNewRound (openNewRound Store.init).2).1 = OpenResult.alreadyOpen ∧
    openCount (openNewRound Store.init).2 = 1 :=
  ⟨by decide, (claim_C7 Store.init (by decide)).1, (claim_C7 Store.init (by decide)).2.2⟩

/-- C2: in every reachable store the draws carry pairwise distinct round
ids (each round has at most one draw), and a `POST /store-results` call
whose target (the most recent round, reached with no round open) already
has a draw answers `DrawAlreadyExists` and leaves the store unchanged. -/
theorem claim_C2 (s : Store) (hre : Reachable s) :
    (s.draws.map (·.roundId)).Nodup ∧
    ∀ (n? : Option (List Nat)) (last : Round), getOpenRound s = none →
      getLastRound s = some last →
      (s.draws.find? (fun d => d.roundId == last.id)).isSome →
      publishDraw n? s = (Sum.inr DrawError.drawAlreadyExists, s) := by
  refine ⟨(reachable_storeInv hre).2.1, ?_⟩
  intro n? last ho hl hd
  rw [publishDraw, ho, hl]
  simp [hd]

theorem claim_C2_witness :
    publishDraw (some [9])
        (runOps [Op.openRound, Op.closeRound, Op.publish (some [1, 2, 3])] Store.init) =
      (Sum.inr DrawError.drawAlreadyExists,
        runOps [Op.openRound, Op.closeRound, Op.publish (some [1, 2, 3])] Store.init) ∧
    ((runOps [Op.openRound, Op.closeRound, Op.publish (some [1, 2, 3])]
        Store.init).draws.map (·.roundId)).Nodup :=
  ⟨(claim_C2 _ ⟨[Op.openRound, Op.closeRound, Op.publish (some [1, 2, 3])], rfl⟩).2
      (some [9]) { id := 1, isOpen := false } (by decide) (by decide) (by decide),
   (claim_C2 _ ⟨[Op.openRound, Op.closeRound, Op.publish (some [1, 2, 3])], rfl⟩).1⟩

/-- C9: `GET /t/:id` answers 404 exactly on unknown ticket ids; on a known
ticket whose round has no draw it renders the ticket's own parsed numbers
and shows the drawn numbers as not yet published. -/
theorem claim_C9 (tid : Nat) (s : Store) :
    (s.tickets.find? (fun t => t.id == tid) = none → getTicketView tid s = none) ∧
    ∀ t, s.tickets.find? (fun t => t.id == tid) = some t →
      s.draws.find? (fun d => d.roundId == t.roundId) = none →
      ∃ v, getTicketView tid s = some v ∧
        v.yourNumbers = (splitComma t.numbersCsv).map jsNum ∧
        v.drawnNumbers = [] ∧ notYetDrawn v = true := by
  constructor
  · intro h
    rw [getTicketView, h]
  · intro t ht hd
    rw [getTicketView, ht]
    dsimp only
    rw [hd]
    exact ⟨_, rfl, rfl, rfl, rfl⟩

theorem claim_C9_witness :
    getTicketView 99 (runOps [Op.openRound,
        Op.submit "AB1".toList "1,2,3,4,5,6".toList none] Store.init) = none ∧
    ∃ v, getTicketView 1 (runOps [Op.openRound,
        Op.submit "AB1".toList "1,2,3,4,5,6".toList none] Store.init) = some v ∧
      v.drawnNumbers = [] ∧ notYetDrawn v = true := by
  constructor
  · exact (claim_C9 99 _).1 (by decide)
  · obtain ⟨v, h1, _, h3, h4⟩ :=
      (claim_C9 1 (runOps [Op.openRound,
          Op.submit "AB1".toList "1,2,3,4,5,6".toList none] Store.init)).2
        ⟨1, "AB1".toList, "1,2,3,4,5,6".toList, 1, none⟩ (by decide) (by decide)
    exact ⟨v, h1, h3, h4⟩

/-- C10: publishing the empty numbers array for a closed, undrawn latest
round succeeds and stores an empty CSV; the draw row then exists, yet every
ticket view of that round still shows the numbers as not yet drawn, because
the empty string is falsy. -/
theorem claim_C10 (s : Store) (last : Round)
    (hopen : getOpenRound s = none) (hlast : getLastRound s = some last)
    (hnodraw : s.draws.find? (fun d => d.roundId == last.id) = none) :
    ∃ d, (publishDraw (some []) s).1 = Sum.inl d ∧ d.numbers = [] ∧
      d.roundId = last.id ∧ d ∈ (publishDraw (some []) s).2.draws ∧
      ∀ (tid : Nat) (t : Ticket), s.tickets.find? (fun u => u.id == tid) = some t →
        t.roundId = last.id →
        ∃ v, getTicketView tid (publishDraw (some []) s).2 = some v ∧
          v.drawnNumbers = [] ∧ notYetDrawn v = true := by
  have hcond : ¬ (s.draws.find? (fun d => d.roundId == last.id)).isSome = true := by
    rw [hnodraw]
    simp
  have h1 : publishDraw (some []) s =
      (Sum.inl (⟨s.nextDrawId, [], last.id⟩ : Draw),
        { s with draws := s.draws ++ [(⟨s.nextDrawId, [], last.id⟩ : Draw)], nextDrawId := s.nextDrawId + 1 }) := by
    rw [publishDraw, hopen, hlast]
    dsimp only
    rw [if_neg hcond]
    rfl
  refine ⟨⟨s.nextDrawId, [], last.id⟩, by rw [h1], rfl, rfl, ?_, ?_⟩
  · rw [h1]
    simp
  · intro tid t ht hrid
    rw [h1, getTicketView]
    simp only
    rw [ht]
    dsimp only
    have hfind : (s.draws ++ [(⟨s.nextDrawId, [], last.id⟩ : Draw)]).find?
        (fun d => d.roundId == t.roundId) = some (⟨s.nextDrawId, [], last.id⟩ : Draw) := by
      rw [List.find?_append]
      have h2 : s.draws.find? (fun d => d.roundId == t.roundId) = none := by
        rw [hrid]
        exact hnodraw
      rw [h2]
      simp [hrid]
    rw [hfind]
    exact ⟨_, rfl, rfl, rfl⟩

/-- C6 counterexample: with a round open and a valid personal id, the raw
numbers string `1,2,3,4,5,x` contains the unparseable token `x`, yet the
submission fails with `InvalidRange`, not `InvalidCount`: `x` becomes `NaN`
after `.map(Number)`, the count check only counts tokens (six here), and
the `NaN` is caught by the `Number.isInteger` clause of the range check. -/
theorem claim_C6_counterexample :
    none ∈ parseNumbersRaw "1,2,3,4,5,x".toList ∧
    (submitTicket "AB123".toList "1,2,3,4,5,x".toList none
        (runOps [Op.openRound] Store.init)).1 = Sum.inr TicketError.invalidRange ∧
    (submitTicket "AB123".toList "1,2,3,4,5,x".toList none
        (runOps [Op.openRound] Store.init)).1 ≠ Sum.inr TicketError.invalidCount := by
  decide

/-- C6 amended: while a round is open and the personal id is valid, a raw
numbers string with an unparseable token fails with `InvalidRange` whenever
the token count is within 6–10; `InvalidCount` arises only from the token
count itself. -/
theorem claim_C6_amended (pid raw : List Char) (sub : Option (List Char)) (s : Store)
    (r : Round) (h : getOpenRound s = some r) (_hp : validPersonalId pid = true)
    (h6 : 6 ≤ (parseNumbersRaw raw).length) (h10 : (parseNumbersRaw raw).length ≤ 10)
    (hn : none ∈ parseNumbersRaw raw) :
    (submitTicket pid raw sub s).1 = Sum.inr TicketError.invalidRange := by
  have hchk : numbersCheck (parseNumbersRaw raw) = some TicketError.invalidRange := by
    rw [numbersCheck, if_neg (by omega),
      if_pos (List.any_eq_true.mpr ⟨none, hn, rfl⟩)]
  rw [submitTicket, h]
  simp [hchk]

theorem claim_C6_amended_witness :
    (submitTicket "XY77".toList "2,3,4,5,6,zz".toList none
        (runOps [Op.openRound] Store.init)).1 = Sum.inr TicketError.invalidRange :=
  claim_C6_amended "XY77".toList "2,3,4,5,6,zz".toList none
    (runOps [Op.openRound] Store.init) { id := 1, isOpen := true }
    (by decide) (by decide) (by decide) (by decide) (by decide)

theorem numbersCheck_none_facts (arr : List (Option Nat)) (h : numbersCheck arr = none) :
    6 ≤ arr.length ∧ arr.length ≤ 10 ∧ ∀ o ∈ arr, isBadNum o = false := by
  rw [numbersCheck] at h
  split_ifs at h with h1 h2 h3
  refine ⟨by omega, by omega, ?_⟩
  intro o ho
  by_contra hbad
  exact h2 (List.any_eq_true.mpr ⟨o, ho, by simpa using hbad⟩)

theorem allGood_structure (arr : List (Option Nat)) (h : ∀ o ∈ arr, isBadNum o = false) :
    arr = arr.reduceOption.map some ∧ ∀ n ∈ arr.reduceOption, 1 ≤ n ∧ n ≤ 45 := by
  induction arr with
  | nil => exact ⟨rfl, by simp [List.reduceOption]⟩
  | cons o t ih =>
      obtain ⟨ih1, ih2⟩ := ih (fun x hx => h x (List.mem_cons_of_mem o hx))
      cases o with
      | none =>
          have hx := h none (List.mem_cons_self _ _)
          simp [isBadNum] at hx
      | some n =>
          have hn := h (some n) (List.mem_cons_self _ _)
          simp only [isBadNum, Bool.or_eq_false_iff, decide_eq_false_iff_not] at hn
          constructor
          · rw [List.reduceOption_cons_of_some, List.map_cons]
            exact congrArg _ ih1
          · intro m hm
            rw [List.reduceOption_cons_of_some] at hm
            rcases List.mem_cons.mp hm with rfl | hm
            · omega
            · exact ih2 m hm

theorem find?_fresh (tickets : List Ticket) (next : Nat)
    (h : ∀ u ∈ tickets, u.id < next) (t : Ticket) (hid : t.id = next) :
    (tickets ++ [t]).find? (fun u => u.id == next) = some t := by
  rw [List.find?_append]
  have h1 : tickets.find? (fun u => u.id == next) = none := by
    rw [List.find?_eq_none]
    intro u hu
    simp only [beq_iff_eq]
    have := h u hu
    omega
  rw [h1]
  simp [hid]

/-- C8: a valid submission while a round is open creates a ticket bound to
the open round's id, and the subsequent `GET /t/:id` recovers exactly the
submitted number sequence, in order, through the CSV encoding. -/
theorem claim_C8 (pid raw : List Char) (sub : Option (List Char)) (s : Store)
    (r : Round) (t : Ticket) (hre : Reachable s) (h : getOpenRound s = some r)
    (ht : (submitTicket pid raw sub s).1 = Sum.inl t) :
    t.roundId = r.id ∧
    parseNumbersRaw raw = (extractNums (parseNumbersRaw raw)).map some ∧
    ∃ v, getTicketView t.id (submitTicket pid raw sub s).2 = some v ∧
      v.yourNumbers = (extractNums (parseNumbersRaw raw)).map some := by
  rw [submitTicket, h] at ht ⊢
  dsimp only at ht ⊢
  cases hchk : numbersCheck (parseNumbersRaw raw) with
  | some e => rw [hchk] at ht; simp at ht
  | none =>
      rw [hchk] at ht
      by_cases hp : validPersonalId pid
      case neg => simp [hp] at ht
      case pos =>
      simp only [hp, Bool.not_true, Bool.false_eq_true, if_false] at ht ⊢
      obtain ⟨hl6, hl10, hgood⟩ := numbersCheck_none_facts _ hchk
      obtain ⟨hstruct, hrange⟩ := allGood_structure _ hgood
      have hnums_len : (extractNums (parseNumbersRaw raw)).length =
          (parseNumbersRaw raw).length := by
        conv_rhs => rw [hstruct]
        rw [List.length_map]
        rfl
      have hne : extractNums (parseNumbersRaw raw) ≠ [] := by
        intro hnil
        rw [extractNums] at hnil
        rw [extractNums, hnil] at hnums_len
        simp at hnums_len
        omega
      injection ht with he
      subst he
      refine ⟨rfl, by rw [extractNums]; exact hstruct, ?_⟩
      rw [getTicketView]
      dsimp only
      have hfresh := (reachable_storeInv hre).2.2
      rw [find?_fresh s.tickets s.nextTicketId hfresh _ rfl]
      dsimp only
      exact ⟨_, rfl, parse_join _ hne⟩

theorem isAlphanum_iff (c : Char) : Char.isAlphanum c = true ↔ charInClass c := by
  simp only [Char.isAlphanum, Char.isAlpha, Char.isUpper, Char.isLower, Char.isDigit,
    Bool.or_eq_true, Bool.and_eq_true, decide_eq_true_eq, Char.le_def, GE.ge, charInClass]
  exact or_assoc

theorem validPersonalId_iff (pid : List Char) :
    validPersonalId pid = true ↔
      ¬(pid = [] ∨ 20 < pid.length ∨ ∃ c ∈ pid, ¬ charInClass c) := by
  rw [validPersonalId]
  split_ifs with h1 h2
  · simp [List.isEmpty_iff.mp h1]
  · have : ¬ pid = [] := by simpa [List.isEmpty_iff] using h1
    simp [this, h2]
  · have h1' : ¬ pid = [] := by simpa [List.isEmpty_iff] using h1
    rw [List.all_eq_true]
    push_neg
    constructor
    · intro hall
      exact ⟨h1', by omega, fun c hc => (isAlphanum_iff c).mp (hall c hc)⟩
    · intro hcl c hc
      exact (isAlphanum_iff c).mpr (hcl.2.2 c hc)

theorem isBadNum_iff (o : Option Nat) : isBadNum o = true ↔ ¬ inRange145 o := by
  cases o with
  | none => simp [isBadNum, inRange145]
  | some n =>
      simp only [isBadNum, inRange145, Bool.or_eq_true, decide_eq_true_eq]
      omega

theorem dedup_len_iff (arr : List (Option Nat)) :
    arr.dedup.length = arr.length ↔ arr.Nodup := by
  constructor
  · intro h
    have hs := List.dedup_sublist arr
    rw [← hs.eq_of_length h]
    exact List.nodup_dedup arr
  · intro h
    rw [List.dedup_eq_self.mpr h]

/-- C3 counterexample: with a round open, the invalid personal id `!!!`
together with the short numbers list `1,2,3` yields the count error, not
`InvalidPersonalId`: zod records the personal-id issues but the numbers
transform throws first and its plain `Error` escapes `.parse()`
immediately, so the personal-id rule is not applied first. -/
theorem claim_C3_counterexample :
    validPersonalId "!!!".toList = false ∧
    (submitTicket "!!!".toList "1,2,3".toList none
        (runOps [Op.openRound] Store.init)).1 = Sum.inr TicketError.invalidCount ∧
    (submitTicket "!!!".toList "1,2,3".toList none
        (runOps [Op.openRound] Store.init)).1 ≠ Sum.inr TicketError.invalidPersonalId := by
  decide

/-- C3 amended: while a round is open, the submission outcome follows the
four validation rules with first failure winning, in the order the program
applies them — `InvalidCount`, `InvalidRange`, `DuplicateNumbers` (thrown
from the numbers transform, which escapes zod's parse at once), and
`InvalidPersonalId` last (zod only throws the collected personal-id issues
after the whole object has parsed) — and a ticket is created exactly when
no rule fails. -/
theorem claim_C3 (pid raw : List Char) (sub : Option (List Char)) (s : Store)
    (r : Round) (h : getOpenRound s = some r) :
    resultError (submitTicket pid raw sub s).1 = orderedTicketError pid raw := by
  rw [submitTicket, h, orderedTicketError]
  dsimp only
  by_cases hc : (parseNumbersRaw raw).length < 6 ∨ 10 < (parseNumbersRaw raw).length
  · have hchk : numbersCheck (parseNumbersRaw raw) = some TicketError.invalidCount := by
      rw [numbersCheck, if_pos hc]
    rw [hchk, if_pos hc]
    rfl
  · rw [if_neg hc]
    by_cases hr : (parseNumbersRaw raw).any isBadNum
    · have hchk : numbersCheck (parseNumbersRaw raw) = some TicketError.invalidRange := by
        rw [numbersCheck, if_neg hc, if_pos hr]
      have hr' : ∃ o ∈ parseNumbersRaw raw, ¬ inRange145 o := by
        rcases List.any_eq_true.mp hr with ⟨o, ho, hbad⟩
        exact ⟨o, ho, (isBadNum_iff o).mp hbad⟩
      rw [hchk, if_pos hr']
      rfl
    · have hr' : ¬ ∃ o ∈ parseNumbersRaw raw, ¬ inRange145 o := by
        intro hcon
        rcases hcon with ⟨o, ho, hbad⟩
        exact hr (List.any_eq_true.mpr ⟨o, ho, (isBadNum_iff o).mpr hbad⟩)
      rw [if_neg hr']
      by_cases hdup : (parseNumbersRaw raw).dedup.length ≠ (parseNumbersRaw raw).length
      · have hchk : numbersCheck (parseNumbersRaw raw) =
            some TicketError.duplicateNumbers := by
          rw [numbersCheck, if_neg hc, if_neg (by simp [hr]), if_pos hdup]
        have hnd : ¬ (parseNumbersRaw raw).Nodup :=
          fun hn => hdup ((dedup_len_iff _).mpr hn)
        rw [hchk, if_pos hnd]
        rfl
      · have hchk : numbersCheck (parseNumbersRaw raw) = none := by
          rw [numbersCheck, if_neg hc, if_neg (by simp [hr]), if_neg hdup]
        have hnd : ¬ ¬ (parseNumbersRaw raw).Nodup := by
          push_neg
          exact (dedup_len_iff _).mp (by omega)
        rw [hchk, if_neg hnd]
        by_cases hv : validPersonalId pid
        · rw [hv]
          dsimp only
          rw [if_neg (show ¬ ((!true) = true) by decide),
            if_neg ((validPersonalId_iff pid).mp hv)]
          rfl
        · have hv' : validPersonalId pid = false := by
            cases hb : validPersonalId pid
            · rfl
            · exact absurd hb hv
          rw [hv']
          dsimp only
          rw [if_pos (show (!false) = true by decide),
            if_pos (by by_contra hcon; exact hv ((validPersonalId_iff pid).mpr hcon))]
          rfl

theorem claim_C3_witness :
    orderedTicketError "!!!".toList "1,2,3".toList = some TicketError.invalidCount :=
  ((claim_C3 "!!!".toList "1,2,3".toList none (runOps [Op.openRound] Store.init)
      { id := 1, isOpen := true } (by decide)).symm).trans (by decide)

theorem find?_isSome_eq_any (l : List Draw) (p : Draw → Bool) :
    (l.find? p).isSome = l.any p := by
  induction l with
  | nil => rfl
  | cons d t ih =>
      by_cases hp : p d = true
      · rw [List.find?_cons_of_pos _ hp, List.any_cons, hp]
        rfl
      · have hp' : p d = false := by
          cases hpd : p d
          · rfl
          · exact absurd hpd hp
        rw [List.find?_cons_of_neg _ hp, List.any_cons, hp', Bool.false_or, ih]

/-- C5: `POST /store-results` checks its preconditions in the spec's fixed
order — open round, round existence, prior draw, array shape — and on
success persists a draw bound to the most recent round's id with the
numbers joined in their given order. -/
theorem claim_C5 (n? : Option (List Nat)) (s : Store) :
    drawResultError (publishDraw n? s).1 = specDrawOutcome n? s ∧
    ∀ (l : List Nat) (last : Round) (d : Draw), n? = some l →
      getLastRound s = some last → (publishDraw n? s).1 = Sum.inl d →
      d.roundId = last.id ∧ d.numbers = joinComma (l.map natToChars) ∧
      (publishDraw n? s).2.draws = s.draws ++ [d] ∧
      (l ≠ [] → (splitComma d.numbers).map jsNum = l.map some) := by
  rw [publishDraw, specDrawOutcome]
  cases hq : getOpenRound s with
  | some r =>
      have hany : s.rounds.any (·.isOpen) = true :=
        List.any_eq_true.mpr ⟨r, (getOpenRound_some hq).1, (getOpenRound_some hq).2⟩
      rw [if_pos hany]
      exact ⟨rfl, fun l last d _ _ hd => absurd hd (by simp)⟩
  | none =>
      have hany : ¬ s.rounds.any (·.isOpen) = true := by
        rw [List.any_eq_true]
        intro hcon
        rcases hcon with ⟨x, hx, hxo⟩
        rw [getOpenRound_none hq x hx] at hxo
        cases hxo
      rw [if_neg hany]
      cases hl : getLastRound s with
      | none => exact ⟨rfl, fun l last d _ hcon => absurd hcon (by simp)⟩
      | some last =>
          dsimp only
          by_cases hd : (s.draws.find? (fun d => d.roundId == last.id)).isSome
          · rw [if_pos hd, if_pos (by rw [← find?_isSome_eq_any]; exact hd)]
            exact ⟨rfl, fun l last' d _ _ hcon => absurd hcon (by simp)⟩
          · rw [if_neg hd, if_neg (by rw [← find?_isSome_eq_any]; exact hd)]
            cases n? with
            | none =>
                exact ⟨rfl, fun l last' d hcon => absurd hcon (by simp)⟩
            | some l =>
                dsimp only
                refine ⟨rfl, ?_⟩
                intro l2 last2 d h1 h2 h3
                injection h1 with e1
                subst e1
                injection h2 with e2
                subst e2
                injection h3 with e3
                subst e3
                exact ⟨rfl, rfl, rfl, fun hne => parse_join _ hne⟩

theorem claim_C5_witness :
    drawResultError (publishDraw (some [7, 8])
        (runOps [Op.openRound, Op.closeRound] Store.init)).1 =
      specDrawOutcome (some [7, 8]) (runOps [Op.openRound, Op.closeRound] Store.init) ∧
    (publishDraw (some [7, 8]) (runOps [Op.openRound, Op.closeRound] Store.init)).2.draws =
      (runOps [Op.openRound, Op.closeRound] Store.init).draws ++
        [{ id := 1, numbers := "7,8".toList, roundId := 1 }] :=
  ⟨(claim_C5 (some [7, 8]) (runOps [Op.openRound, Op.closeRound] Store.init)).1,
   ((claim_C5 (some [7, 8]) (runOps [Op.openRound, Op.closeRound] Store.init)).2
      [7, 8] { id := 1, isOpen := false } { id := 1, numbers := "7,8".toList, roundId := 1 }
      rfl (by decide) (by decide)).2.2.1⟩

theorem claim_C8_witness :
    ∃ v, getTicketView 1 (submitTicket "AB123".toList "1,2,3,4,5,6".toList none
        (runOps [Op.openRound] Store.init)).2 = some v ∧
      v.yourNumbers = (extractNums (parseNumbersRaw "1,2,3,4,5,6".toList)).map some :=
  (claim_C8 "AB123".toList "1,2,3,4,5,6".toList none (runOps [Op.openRound] Store.init)
    { id := 1, isOpen := true }
    { id := 1, personalId := "AB123".toList, numbersCsv := "1,2,3,4,5,6".toList,
      roundId := 1, userSub := none }
    ⟨[Op.openRound], rfl⟩ (by decide) (by decide)).2.2

theorem claim_C10_witness :
    ∃ d, (publishDraw (some []) (runOps [Op.openRound,
        Op.submit "AB1".toList "1,2,3,4,5,6".toList none, Op.closeRound] Store.init)).1 =
      Sum.inl d ∧ d.numbers = [] ∧
      ∃ v, getTicketView 1 (publishDraw (some []) (runOps [Op.openRound,
          Op.submit "AB1".toList "1,2,3,4,5,6".toList none, Op.closeRound] Store.init)).2 =
        some v ∧ v.drawnNumbers = [] ∧ notYetDrawn v = true := by
  obtain ⟨d, h1, h2, h3, h4, h5⟩ :=
    claim_C10 (runOps [Op.openRound,
        Op.submit "AB1".toList "1,2,3,4,5,6".toList none, Op.closeRound] Store.init)
      { id := 1, isOpen := false } (by decide) (by decide) (by decide)
  obtain ⟨v, hv1, hv2, hv3⟩ := h5 1
    { id := 1, personalId := "AB1".toList, numbersCsv := "1,2,3,4,5,6".toList,
      roundId := 1, userSub := none } (by decide) rfl
  exact ⟨d, h1, h2, v, hv1, hv2, hv3⟩
